import Mathlib

/-!
A shallow embedding of the native dependency discovery and bundling subsystem
of `src/build.py` (a portable-build script that collects the shared libraries
a binary needs and stages them for packaging), together with theorems checking
the specification's claims about it.

Embedded pieces: the `LDD_EXCLUDES` and `NSS_NAMES` constants, the
`parse_ldd_paths` output parser, the `run` subprocess wrapper, `ldd_deps`,
`ldconfig_lookup`, `find_nss_lib`, `copy_unique`, the staging loops of
`stage_libs`, and the `--add-binary` manifest loop.  External effects
(processes, the filesystem) are modelled by an explicit environment record;
machine strings are Lean `String`s, file contents are `List Nat` byte lists.
-/

/-- The tuple `LDD_EXCLUDES` from build.py: substrings marking core system
libraries that must never be bundled. -/
def LDD_EXCLUDES : List String :=
  ["ld-linux", "libc.so", "libm.so", "libpthread.so", "libdl.so", "librt.so"]

/-- The list `NSS_NAMES` from build.py: NSS library filenames resolved by
name because Chromium loads them dynamically. -/
def NSS_NAMES : List String :=
  ["libsoftokn3.so", "libsoftokn3.chk", "libnss3.so", "libnssutil3.so",
   "libsmime3.so", "libssl3.so", "libnssckbi.so", "libnspr4.so",
   "libplc4.so", "libplds4.so", "libfreebl3.so", "libfreeblpriv3.so"]

/-- ASCII whitespace, as matched by Python's `str.strip` and the regex
class for whitespace on the characters that occur in tool output. -/
def isPySpace (c : Char) : Bool :=
  c = ' ' || c = '\t' || c = '\n' || c = '\r' || c = '\x0b' || c = '\x0c'

/-- Python `candidate.startswith("/")`. -/
def startsWithSlash (s : String) : Bool :=
  match s.data with
  | '/' :: _ => true
  | _ => false

/-- Python `any(ex in candidate for ex in LDD_EXCLUDES)`: substring
containment of any exclusion marker. -/
def isExcluded (p : String) : Bool :=
  LDD_EXCLUDES.any (fun ex => decide (ex.data <:+: p.data))

/-- Python `"=>" in line`. -/
def hasArrow : List Char → Bool
  | '=' :: '>' :: _ => true
  | _ :: cs => hasArrow cs
  | [] => false

/-- One attempt of the regex `=>` whitespace-plus nonspace-plus at the head of
the character list: the two marker characters, at least one whitespace
character, then the maximal nonspace token (the capture group). -/
def matchAt : List Char → Option (List Char)
  | '=' :: '>' :: c :: rest =>
    if isPySpace c then
      match rest.dropWhile isPySpace with
      | [] => none
      | t => some (t.takeWhile (fun ch => !isPySpace ch))
    else none
  | _ => none

/-- Python re.search for the pattern above: the leftmost position where it
matches, returning the capture group. -/
def scanArrow : List Char → Option (List Char)
  | [] => none
  | c :: cs =>
    match matchAt (c :: cs) with
    | some t => some t
    | none => scanArrow cs

/-- Candidate extraction of `parse_ldd_paths` on one line: skip lines
without `=>`, then take the regex group after the marker. -/
def lddCandidate (line : String) : Option String :=
  if hasArrow line.data then (scanArrow line.data).map String.mk else none

/-- The body of the `parse_ldd_paths` loop on one line: keep the candidate
only if it is an absolute path and matches no exclusion marker. -/
def keepPath (line : String) : Option String :=
  match lddCandidate line with
  | some candidate =>
    if startsWithSlash candidate then
      if isExcluded candidate then none else some candidate
    else none
  | none => none

/-- Python `str.splitlines`, restricted to the newline separator (the only
line separator produced by the tools whose output is parsed here). -/
def splitLines (s : String) : List String := s.splitOn "\n"

/-- Function `parse_ldd_paths` from build.py: the deduplicated set of surviving
candidate paths over all lines of the ldd output. -/
def parse_ldd_paths (ldd_output : String) : Finset String :=
  (splitLines ldd_output).foldl
    (fun acc line =>
      match keepPath line with
      | some p => insert p acc
      | none => acc) ∅

theorem mem_parseFold (ls : List String) (acc : Finset String) (p : String) :
    p ∈ ls.foldl
      (fun acc line =>
        match keepPath line with
        | some q => insert q acc
        | none => acc) acc ↔ p ∈ acc ∨ ∃ l ∈ ls, keepPath l = some p := by
  induction ls generalizing acc with
  | nil => simp
  | cons l ls ih =>
    simp only [List.foldl_cons]
    rw [ih]
    cases h : keepPath l with
    | none =>
      simp only [List.mem_cons]
      constructor
      · rintro (hp | ⟨x, hx, hk⟩)
        · exact Or.inl hp
        · exact Or.inr ⟨x, Or.inr hx, hk⟩
      · rintro (hp | ⟨x, hx, hk⟩)
        · exact Or.inl hp
        · rcases hx with rfl | hx
          · rw [h] at hk; cases hk
          · exact Or.inr ⟨x, hx, hk⟩
    | some q =>
      simp only [Finset.mem_insert, List.mem_cons]
      constructor
      · rintro ((rfl | hp) | ⟨x, hx, hk⟩)
        · exact Or.inr ⟨l, Or.inl rfl, h⟩
        · exact Or.inl hp
        · exact Or.inr ⟨x, Or.inr hx, hk⟩
      · rintro (hp | ⟨x, hx, hk⟩)
        · exact Or.inl (Or.inr hp)
        · rcases hx with rfl | hx
          · rw [h] at hk
            exact Or.inl (Or.inl (Option.some.inj hk).symm)
          · exact Or.inr ⟨x, hx, hk⟩

theorem keepPath_eq_some (line p : String) :
    keepPath line = some p ↔
      lddCandidate line = some p ∧ startsWithSlash p = true ∧ isExcluded p = false := by
  unfold keepPath
  cases h : lddCandidate line with
  | none => simp
  | some c =>
    show (if startsWithSlash c then
        if isExcluded c then (none : Option String) else some c else none) = some p ↔
      some c = some p ∧ startsWithSlash p = true ∧ isExcluded p = false
    by_cases hs : startsWithSlash c = true
    · by_cases he : isExcluded c = true
      · rw [if_pos hs, if_pos he]
        constructor
        · intro hk; exact (Option.noConfusion hk)
        · rintro ⟨hcp, -, hf⟩
          rcases Option.some.inj hcp with rfl
          rw [he] at hf; cases hf
      · rw [if_pos hs, if_neg he]
        constructor
        · intro hk
          rcases Option.some.inj hk with rfl
          exact ⟨rfl, hs, Bool.eq_false_iff.mpr he⟩
        · rintro ⟨hcp, -, -⟩; exact hcp
    · rw [if_neg hs]
      constructor
      · intro hk; exact (Option.noConfusion hk)
      · rintro ⟨hcp, hsp, -⟩
        rcases Option.some.inj hcp with rfl
        exact absurd hsp hs

/-- C1: a line of the ldd output contributes a path to the result of
`parse_ldd_paths` iff it contains the resolved-to marker `=>`, the token
immediately after the marker starts with `/`, and that token contains no
exclusion-list substring; the surviving tokens form a deduplicated set. -/
theorem parse_ldd_paths_mem_iff (out p : String) :
    p ∈ parse_ldd_paths out ↔
      ∃ line ∈ splitLines out,
        lddCandidate line = some p ∧ startsWithSlash p = true ∧ isExcluded p = false := by
  unfold parse_ldd_paths
  rw [mem_parseFold]
  simp only [Finset.not_mem_empty, false_or, keepPath_eq_some]

/-- C2: the exclusion predicate applied inside `parse_ldd_paths` holds iff
the path contains, anywhere as a substring, at least one of the six fixed
host-ABI marker strings; it is a pure total function of the path. -/
theorem isExcluded_iff_marker_substring (p : String) :
    isExcluded p = true ↔
      "ld-linux".data <:+: p.data ∨ "libc.so".data <:+: p.data ∨
      "libm.so".data <:+: p.data ∨ "libpthread.so".data <:+: p.data ∨
      "libdl.so".data <:+: p.data ∨ "librt.so".data <:+: p.data := by
  simp only [isExcluded, LDD_EXCLUDES, List.any_eq_true, List.mem_cons,
    List.not_mem_nil, or_false, decide_eq_true_eq]
  constructor
  · rintro ⟨x, hx, hs⟩
    rcases hx with rfl | rfl | rfl | rfl | rfl | rfl <;> tauto
  · rintro (h | h | h | h | h | h)
    · exact ⟨"ld-linux", by tauto, h⟩
    · exact ⟨"libc.so", by tauto, h⟩
    · exact ⟨"libm.so", by tauto, h⟩
    · exact ⟨"libpthread.so", by tauto, h⟩
    · exact ⟨"libdl.so", by tauto, h⟩
    · exact ⟨"librt.so", by tauto, h⟩

/-!
## The build-host environment

All external effects of build.py are modelled by one record: process
invocation results, filesystem queries, file contents and the possibility
of a copy failing.  Each field is the oracle for exactly one boundary call
of the source.
-/

/-- The build host as seen by build.py: oracles for every external call. -/
structure Env where
  /-- Truthiness of `shutil.which("ldconfig")`. -/
  ldconfigOnPath : Bool
  /-- Result of `run(["ldconfig", "-p"])`: `some lines` when the process
  succeeds with that `splitlines()` output, `none` when `run` raises. -/
  ldconfigRun : Option (List String)
  /-- Python `Path(p).exists()`. -/
  pathExists : String → Bool
  /-- Python `Path(root).rglob(name)`: the paths produced, in traversal order. -/
  rglob : String → String → List String
  /-- Python `Path(candidate).is_file()`. -/
  isFile : String → Bool
  /-- The bytes obtained by copying the (symlink-dereferenced) file at a
  path, as read by `shutil.copy2(..., follow_symlinks=True)`. -/
  content : String → List Nat
  /-- Whether `shutil.copy2` raises for this source path. -/
  copyFails : String → Bool
  /-- Python `glob.glob(pattern)`. -/
  glob : String → List String
  /-- Python `subprocess.run(cmd, capture_output=True)`: returncode, stdout, stderr. -/
  proc : List String → Nat × String × String

/-- A `RuntimeError` raised by `run` in build.py: it carries the failing
command and its captured stdout and stderr. -/
structure RunFailure where
  cmd : List String
  stdout : String
  stderr : String
deriving DecidableEq

/-- Function `run` from build.py: execute a command; raise (here: return `.error`
with the command and captured output) iff the return code is nonzero. -/
def run (env : Env) (cmd : List String) : Except RunFailure String :=
  if (env.proc cmd).1 ≠ 0 then
    .error ⟨cmd, (env.proc cmd).2.1, (env.proc cmd).2.2⟩
  else .ok (env.proc cmd).2.1

/-- Function `ldd_deps` from build.py: run ldd on the binary and parse its output;
a `run` failure propagates uncaught. -/
def ldd_deps (env : Env) (binary : String) : Except RunFailure (Finset String) :=
  (run env ["ldd", binary]).map parse_ldd_paths

/-- Python `line.strip()` for ASCII whitespace. -/
def stripStr (s : String) : String :=
  String.mk (((s.data.dropWhile isPySpace).reverse.dropWhile isPySpace).reverse)

/-- The regex of `ldconfig_lookup`, anchored at end of line: the final
nonspace token of the (stripped) line, provided it is preceded by at least
one whitespace character which is itself directly preceded by `=>`. -/
def lastTokenArrow (s : List Char) : Option (List Char) :=
  let r := s.reverse
  let tok := r.takeWhile (fun c => !isPySpace c)
  let r2 := r.dropWhile (fun c => !isPySpace c)
  let sp := r2.takeWhile isPySpace
  let r3 := r2.dropWhile isPySpace
  match tok, sp, r3 with
  | [], _, _ => none
  | _, [], _ => none
  | _, _ :: _, '>' :: '=' :: _ => some tok.reverse
  | _, _ :: _, _ => none

/-- The line loop of `ldconfig_lookup`: return the first line that starts
(after stripping) with `name ++ " "`, whose tail matches the end-anchored
regex, and whose extracted path exists; otherwise fall through. -/
def lookupLines (env : Env) (name : String) : List String → Option String
  | [] => none
  | l :: ls =>
    if (name ++ " ").data.isPrefixOf (stripStr l).data then
      match lastTokenArrow (stripStr l).data with
      | some tokChars =>
        if env.pathExists (String.mk tokChars) then some (String.mk tokChars)
        else lookupLines env name ls
      | none => lookupLines env name ls
    else lookupLines env name ls

/-- Function `ldconfig_lookup` from build.py: guarded by `shutil.which`, with any
failure of the `ldconfig -p` invocation caught and turned into `None`. -/
def ldconfig_lookup (env : Env) (name : String) : Option String :=
  if env.ldconfigOnPath then
    match env.ldconfigRun with
    | some lines => lookupLines env name lines
    | none => none
  else none

/-- Number of `ldconfig -p` invocations performed by one call of
`ldconfig_lookup`: the source calls `run(["ldconfig", "-p"])` inside the
body of the `shutil.which` guard, unconditionally and with no cache. -/
def ldconfigInvocationsPerCall (env : Env) : Nat :=
  if env.ldconfigOnPath then 1 else 0

/-- Total number of `ldconfig -p` invocations over a sequence of library
name queries, each performed through `ldconfig_lookup`. -/
def registryInvocations (env : Env) (names : List String) : Nat :=
  (names.map (fun _ => ldconfigInvocationsPerCall env)).sum

/-- The fallback loop of `find_nss_lib` for one root: the first `rglob`
candidate that is a regular file. -/
def firstFile (env : Env) : List String → Option String
  | [] => none
  | c :: cs => if env.isFile c then some c else firstFile env cs

/-- Strategy 2 of `find_nss_lib`: recursive search under `/usr/lib` then
`/lib`, returning the first regular file named `name`. -/
def fsSearch (env : Env) (name : String) : Option String :=
  match firstFile env (env.rglob "/usr/lib" name) with
  | some p => some p
  | none => firstFile env (env.rglob "/lib" name)

/-- Function `find_nss_lib` from build.py: the ldconfig cache lookup, then the
filesystem search if and only if the lookup returned nothing. -/
def find_nss_lib (env : Env) (name : String) : Option String :=
  match ldconfig_lookup env name with
  | some p => some p
  | none => fsSearch env name

/-- Whether a call of `find_nss_lib` reaches strategy 2 (the filesystem
search): in the source this happens exactly when strategy 1 returns `None`. -/
def find_nss_lib_usesFsSearch (env : Env) (name : String) : Bool :=
  (ldconfig_lookup env name).isNone

/-!
## Staging and the manifest

The staging directory is modelled as an association list from filename to
file bytes; `shutil.copy2` to an existing name overwrites in place.  The
manifest loop reads the real directory back, so its input is a listing of
directory entries together with an is-regular-file flag.
-/

/-- The contents of the staging directory: one entry per filename, holding
the staged bytes. -/
abbrev StagingState : Type := List (String × List Nat)

/-- The filenames present in the staging directory. -/
def stKeys (st : StagingState) : List String := st.map Prod.fst

/-- The bytes staged under a filename, if any. -/
def lookupSt (st : StagingState) (n : String) : Option (List Nat) :=
  match st with
  | [] => none
  | (k, v) :: rest => if k = n then some v else lookupSt rest n

/-- Writing a file: `shutil.copy2` overwrites the entry with the same name
in place, or creates a new one. -/
def setEntry (k : String) (v : List Nat) : StagingState → StagingState
  | [] => [(k, v)]
  | (k2, v2) :: rest =>
    if k2 = k then (k, v) :: rest else (k2, v2) :: setEntry k v rest

/-- Python `Path(src).name`: the part of the path after the last slash. -/
def baseName (p : String) : String :=
  String.mk ((p.data.reverse.takeWhile (fun c => c != '/')).reverse)

/-- Function `copy_unique` from build.py: copy the (dereferenced) source into the
staging directory under its base filename, overwriting a same-named file. -/
def copy_unique (env : Env) (src : String) (st : StagingState) : StagingState :=
  setEntry (baseName src) (env.content src) st

/-- One guarded copy of the staging loops of `stage_libs`: `try:
copy_unique(...) except: print WARN` — a failing copy leaves the directory
unchanged and appends a warning instead of propagating. -/
def stageOne (env : Env) (acc : StagingState × List String) (p : String) :
    StagingState × List String :=
  if env.copyFails p then (acc.1, acc.2 ++ ["WARN: failed to copy " ++ p])
  else (copy_unique env p acc.1, acc.2)

/-- One iteration of step 2 of `stage_libs`: resolve an NSS name, stage it
if found and still existing, otherwise warn that the component is missing. -/
def stageNssOne (env : Env) (acc : StagingState × List String) (name : String) :
    StagingState × List String :=
  match find_nss_lib env name with
  | some p =>
    if env.pathExists p then stageOne env acc p
    else (acc.1, acc.2 ++ ["WARN: NSS component not found: " ++ name])
  | none => (acc.1, acc.2 ++ ["WARN: NSS component not found: " ++ name])

/-- The glob pattern of step 3 of `stage_libs`. -/
def glesPattern : String := "/usr/lib/*-linux-gnu/libGLESv2.so*"

/-- The body of step 3 of `stage_libs` for one glob match: stage it if it
exists, catching per-file copy failures. -/
def stageGlesOne (env : Env) (acc : StagingState × List String) (gp : String) :
    StagingState × List String :=
  if env.pathExists gp then stageOne env acc gp else acc

/-- Step 3 of `stage_libs`: best-effort staging of every `glob.glob` match
of the libGLESv2 pattern. -/
def stageGles (env : Env) (acc : StagingState × List String) :
    StagingState × List String :=
  (env.glob glesPattern).foldl (stageGlesOne env) acc

/-- Function `stage_libs` from build.py, up to the manifest loop: the staging
directory is recreated empty, then filled by the ldd scan (fatal on
failure), the NSS name resolution and the libGLESv2 glob; the result is the
final directory contents plus the warnings printed along the way. -/
def stage_libs (env : Env) (binary : String) :
    Except RunFailure (StagingState × List String) :=
  match ldd_deps env binary with
  | .error e => .error e
  | .ok deps =>
    let acc1 := (deps.sort (· ≤ ·)).foldl (stageOne env) ([], [])
    let acc2 := NSS_NAMES.foldl (stageNssOne env) acc1
    .ok (stageGles env acc2)

/-- A directory entry of the staging directory as seen by
`BUILD_LIBS.glob("*")`: its name and whether it is a regular file. -/
abbrev DirEntry : Type := String × Bool

/-- The number of regular files directly inside the staging directory. -/
def numRegular (entries : List DirEntry) : Nat :=
  (entries.filter (fun e => e.2)).length

/-- The `--add-binary` loop at the end of `stage_libs`: every directory
entry matched by `glob("*")`, sorted (for a flat directory, path order is
filename order), each paired with the constant destination `lib`. -/
def build_manifest (dir : String) (entries : List DirEntry) :
    List (String × String) :=
  (List.insertionSort (fun a b : String => a ≤ b) (entries.map Prod.fst)).map
    (fun n => (dir ++ "/" ++ n, "lib"))

/-!
## Theorems about the resolver and the registry lookup
-/

/-- C3 (amended): one `ldconfig -p` invocation happens per lookup call —
the listing is re-invoked for every queried name whenever ldconfig is on
PATH, with no memoization. -/
theorem registryInvocations_once_per_query (env : Env) (names : List String) :
    registryInvocations env names =
      names.length * (if env.ldconfigOnPath then 1 else 0) := by
  induction names with
  | nil => simp [registryInvocations]
  | cons n ns ih =>
    simp only [registryInvocations, List.map_cons, List.sum_cons,
      List.length_cons] at ih ⊢
    rw [ih, Nat.succ_mul, Nat.add_comm]
    rfl

/-- A concrete build host used by counterexamples and witnesses: ldconfig
is on PATH and returns an empty listing, the filesystem is empty, copies
succeed, external processes succeed with empty output. -/
def envBase : Env where
  ldconfigOnPath := true
  ldconfigRun := some []
  pathExists := fun _ => false
  rglob := fun _ _ => []
  isFile := fun _ => false
  content := fun _ => []
  copyFails := fun _ => false
  glob := fun _ => []
  proc := fun _ => (0, "", "")

/-- C3 counterexample: with ldconfig on PATH, querying two names through
the lookup invokes `ldconfig -p` twice, violating at most one invocation
per build run. -/
theorem registryInvocations_two_queries_two_runs :
    ¬ registryInvocations envBase ["libnss3.so", "libssl3.so"] ≤ 1 := by
  have h : registryInvocations envBase ["libnss3.so", "libssl3.so"] = 2 := rfl
  rw [h]
  omega

theorem lookupLines_pathExists (env : Env) (name : String) (ls : List String)
    (p : String) (h : lookupLines env name ls = some p) :
    env.pathExists p = true := by
  induction ls with
  | nil => cases h
  | cons l ls ih =>
    rw [lookupLines] at h
    by_cases hs : (name ++ " ").data.isPrefixOf (stripStr l).data = true
    · rw [if_pos hs] at h
      cases ht : lastTokenArrow (stripStr l).data with
      | none => rw [ht] at h; exact ih h
      | some tk =>
        rw [ht] at h
        have h2 : (if env.pathExists (String.mk tk) then some (String.mk tk)
            else lookupLines env name ls) = some p := h
        by_cases he : env.pathExists (String.mk tk) = true
        · rw [if_pos he] at h2
          rcases Option.some.inj h2 with rfl
          exact he
        · rw [if_neg he] at h2; exact ih h2
    · rw [if_neg hs] at h; exact ih h

/-- C6: resolution prefers the Library Index over filesystem search — when
the ldconfig lookup yields a path, that path exists on the filesystem, it
is the result of `find_nss_lib`, and the filesystem search does not run. -/
theorem find_nss_lib_prefers_index (env : Env) (name p : String)
    (h : ldconfig_lookup env name = some p) :
    env.pathExists p = true ∧ find_nss_lib env name = some p ∧
      find_nss_lib_usesFsSearch env name = false := by
  refine ⟨?_, ?_, ?_⟩
  · unfold ldconfig_lookup at h
    by_cases ha : env.ldconfigOnPath = true
    · rw [if_pos ha] at h
      cases hr : env.ldconfigRun with
      | none => rw [hr] at h; cases h
      | some lines =>
        rw [hr] at h
        exact lookupLines_pathExists env name lines p h
    · rw [if_neg ha] at h; cases h
  · unfold find_nss_lib
    rw [h]
  · unfold find_nss_lib_usesFsSearch
    rw [h]
    rfl

/-- A host whose ldconfig listing resolves libfoo.so, while the filesystem
search would find a different (decoy) file: the index must win. -/
def envC6 : Env :=
  { envBase with
    ldconfigRun := some ["libfoo.so (libc6,x86-64) => /usr/lib/libfoo.so"]
    pathExists := fun p => p == "/usr/lib/libfoo.so"
    rglob := fun _ _ => ["/decoy/libfoo.so"]
    isFile := fun _ => true }

theorem find_nss_lib_prefers_index_witness :
    envC6.pathExists "/usr/lib/libfoo.so" = true ∧
      find_nss_lib envC6 "libfoo.so" = some "/usr/lib/libfoo.so" ∧
      find_nss_lib_usesFsSearch envC6 "libfoo.so" = false :=
  find_nss_lib_prefers_index envC6 "libfoo.so" "/usr/lib/libfoo.so" (by decide)

theorem firstFile_isSome (env : Env) (l : List String) :
    (firstFile env l).isSome = true ↔ ∃ c ∈ l, env.isFile c = true := by
  induction l with
  | nil => simp [firstFile]
  | cons c cs ih =>
    by_cases hc : env.isFile c = true
    · simp [firstFile, hc]
    · simp only [firstFile, if_neg hc, ih, List.mem_cons]
      constructor
      · rintro ⟨x, hx, hf⟩
        exact ⟨x, Or.inr hx, hf⟩
      · rintro ⟨x, rfl | hx, hf⟩
        · exact absurd hf hc
        · exact ⟨x, hx, hf⟩

/-- C7: when the registry tool is missing from PATH or its invocation
fails, the lookup returns no result instead of raising, resolution falls
through to the filesystem search over the two fixed roots, and it still
succeeds whenever some regular file with the queried name lies under one of
them; the failure never aborts the build. -/
theorem registry_failure_degrades_gracefully (env : Env) (name : String)
    (h : env.ldconfigOnPath = false ∨ env.ldconfigRun = none) :
    ldconfig_lookup env name = none ∧
      find_nss_lib env name = fsSearch env name ∧
      ((∃ c, (c ∈ env.rglob "/usr/lib" name ∨ c ∈ env.rglob "/lib" name) ∧
          env.isFile c = true) → (find_nss_lib env name).isSome = true) := by
  have hl : ldconfig_lookup env name = none := by
    unfold ldconfig_lookup
    rcases h with h | h
    · simp [h]
    · simp [h]
  have hfind : find_nss_lib env name = fsSearch env name := by
    unfold find_nss_lib
    rw [hl]
  refine ⟨hl, hfind, ?_⟩
  rintro ⟨c, hc, hf⟩
  rw [hfind]
  unfold fsSearch
  cases hu : firstFile env (env.rglob "/usr/lib" name) with
  | some p => simp
  | none =>
    rcases hc with hc | hc
    · exfalso
      have hs := (firstFile_isSome env (env.rglob "/usr/lib" name)).mpr ⟨c, hc, hf⟩
      rw [hu] at hs
      cases hs
    · exact (firstFile_isSome env (env.rglob "/lib" name)).mpr ⟨c, hc, hf⟩

/-- A host with no usable ldconfig, but with an NSS library present under
one of the fixed search roots. -/
def envC7 : Env :=
  { envBase with
    ldconfigOnPath := false
    rglob := fun root n =>
      if root == "/usr/lib" && n == "libnss3.so" then ["/usr/lib/nss/libnss3.so"]
      else []
    isFile := fun _ => true }

theorem registry_failure_degrades_gracefully_witness :
    ldconfig_lookup envC7 "libnss3.so" = none ∧
      (find_nss_lib envC7 "libnss3.so").isSome = true := by
  have h := registry_failure_degrades_gracefully envC7 "libnss3.so" (Or.inl rfl)
  exact ⟨h.1, h.2.2 ⟨"/usr/lib/nss/libnss3.so", Or.inl (by decide), by decide⟩⟩

/-!
## Theorems about fatal ldd failure
-/

/-- C8: if the ldd invocation on the target binary exits nonzero, the scan
raises and nothing catches it: `ldd_deps` and the whole of `stage_libs`
abort with an error carrying the failing command and its captured output,
and no staging result (no dependency set, not even a part of one) exists. -/
theorem ldd_failure_aborts_build (env : Env) (binary : String)
    (h : (env.proc ["ldd", binary]).1 ≠ 0) :
    ldd_deps env binary =
        .error ⟨["ldd", binary], (env.proc ["ldd", binary]).2.1,
          (env.proc ["ldd", binary]).2.2⟩ ∧
      stage_libs env binary =
        .error ⟨["ldd", binary], (env.proc ["ldd", binary]).2.1,
          (env.proc ["ldd", binary]).2.2⟩ := by
  have hr : run env ["ldd", binary] =
      .error ⟨["ldd", binary], (env.proc ["ldd", binary]).2.1,
        (env.proc ["ldd", binary]).2.2⟩ := by
    unfold run
    rw [if_pos h]
  have hd : ldd_deps env binary =
      .error ⟨["ldd", binary], (env.proc ["ldd", binary]).2.1,
        (env.proc ["ldd", binary]).2.2⟩ := by
    unfold ldd_deps
    rw [hr]
    rfl
  refine ⟨hd, ?_⟩
  unfold stage_libs
  rw [hd]

/-- A host on which ldd itself fails with captured diagnostics. -/
def envC8 : Env :=
  { envBase with proc := fun _ => (1, "ldd out", "ldd err") }

theorem ldd_failure_aborts_build_witness :
    stage_libs envC8 "/opt/headless_shell" =
      .error ⟨["ldd", "/opt/headless_shell"], "ldd out", "ldd err"⟩ :=
  (ldd_failure_aborts_build envC8 "/opt/headless_shell" (by decide)).2

/-!
## Theorems about the staging invariant
-/

theorem lookupSt_setEntry_self (k : String) (v : List Nat) (st : StagingState) :
    lookupSt (setEntry k v st) k = some v := by
  induction st with
  | nil => simp [setEntry, lookupSt]
  | cons e rest ih =>
    obtain ⟨k2, v2⟩ := e
    by_cases hk : k2 = k
    · simp [setEntry, hk, lookupSt]
    · simp [setEntry, hk, lookupSt, ih]

theorem lookupSt_setEntry_ne (k n : String) (v : List Nat) (st : StagingState)
    (h : k ≠ n) : lookupSt (setEntry k v st) n = lookupSt st n := by
  induction st with
  | nil => simp [setEntry, lookupSt, h]
  | cons e rest ih =>
    obtain ⟨k2, v2⟩ := e
    by_cases hk : k2 = k
    · subst hk
      simp [setEntry, lookupSt, h]
    · simp [setEntry, hk, lookupSt, ih]

theorem setEntry_idem (k : String) (v : List Nat) (st : StagingState) :
    setEntry k v (setEntry k v st) = setEntry k v st := by
  induction st with
  | nil => simp [setEntry]
  | cons e rest ih =>
    obtain ⟨k2, v2⟩ := e
    by_cases hk : k2 = k
    · simp [setEntry, hk]
    · simp [setEntry, hk, ih]

theorem mem_stKeys_setEntry (x k : String) (v : List Nat) (st : StagingState) :
    x ∈ stKeys (setEntry k v st) ↔ x ∈ stKeys st ∨ x = k := by
  induction st with
  | nil => simp [setEntry, stKeys]
  | cons e rest ih =>
    obtain ⟨k2, v2⟩ := e
    by_cases hk : k2 = k
    · rw [setEntry, if_pos hk]
      show x ∈ stKeys ((k, v) :: rest) ↔ x ∈ stKeys ((k2, v2) :: rest) ∨ x = k
      subst hk
      simp only [stKeys, List.map_cons, List.mem_cons]
      tauto
    · rw [setEntry, if_neg hk]
      show x ∈ stKeys ((k2, v2) :: setEntry k v rest) ↔
        x ∈ stKeys ((k2, v2) :: rest) ∨ x = k
      simp only [stKeys, List.map_cons, List.mem_cons]
      rw [show (List.map Prod.fst (setEntry k v rest) : List String) =
        stKeys (setEntry k v rest) from rfl, ih]
      tauto

theorem nodup_stKeys_setEntry (k : String) (v : List Nat) (st : StagingState)
    (h : (stKeys st).Nodup) : (stKeys (setEntry k v st)).Nodup := by
  induction st with
  | nil => simp [setEntry, stKeys]
  | cons e rest ih =>
    obtain ⟨k2, v2⟩ := e
    rw [stKeys, List.map_cons, List.nodup_cons] at h
    obtain ⟨hk2, hrest⟩ := h
    by_cases hk : k2 = k
    · subst hk
      rw [setEntry, if_pos rfl, stKeys, List.map_cons, List.nodup_cons]
      exact ⟨hk2, hrest⟩
    · rw [setEntry, if_neg hk, stKeys, List.map_cons, List.nodup_cons]
      refine ⟨?_, ih hrest⟩
      intro hmem
      rcases (mem_stKeys_setEntry k2 k v rest).mp hmem with hm | hm
      · exact hk2 hm
      · exact hk hm

/-- The staging directory produced by a sequence of copies into the fresh
(empty) staging directory of one build run. -/
def stageSeq (env : Env) (ops : List String) : StagingState :=
  ops.foldl (fun st s => copy_unique env s st) []

theorem nodup_stKeys_foldl_copy (env : Env) (ops : List String)
    (st : StagingState) (h : (stKeys st).Nodup) :
    (stKeys (ops.foldl (fun st s => copy_unique env s st) st)).Nodup := by
  induction ops generalizing st with
  | nil => exact h
  | cons o os ih =>
    exact ih (copy_unique env o st) (nodup_stKeys_setEntry _ _ _ h)

/-- C5: filenames are unique in the staging set (any sequence of stage
operations into the fresh staging directory leaves pairwise distinct
filenames), staging the same source path twice equals staging it once, and
when two sources share a base filename the staged bytes are those of the
last-staged source. -/
theorem staging_unique_idempotent_last_writer_wins (env : Env) :
    (∀ ops : List String, (stKeys (stageSeq env ops)).Nodup) ∧
      (∀ (s : String) (st : StagingState),
        copy_unique env s (copy_unique env s st) = copy_unique env s st) ∧
      (∀ (s1 s2 : String) (st : StagingState), baseName s1 = baseName s2 →
        lookupSt (copy_unique env s2 (copy_unique env s1 st)) (baseName s2) =
          some (env.content s2)) := by
  refine ⟨?_, ?_, ?_⟩
  · intro ops
    exact nodup_stKeys_foldl_copy env ops [] (by simp [stKeys])
  · intro s st
    unfold copy_unique
    exact setEntry_idem _ _ _
  · intro s1 s2 st h
    unfold copy_unique
    exact lookupSt_setEntry_self _ _ _

/-- A host offering two distinct sources that share the base filename
libssl3.so, with different bytes. -/
def envC5 : Env :=
  { envBase with
    content := fun p => if p == "/second/libssl3.so" then [2] else [1] }

theorem staging_unique_idempotent_last_writer_wins_witness :
    lookupSt (copy_unique envC5 "/second/libssl3.so"
        (copy_unique envC5 "/first/libssl3.so" []))
      (baseName "/second/libssl3.so") = some (envC5.content "/second/libssl3.so") :=
  (staging_unique_idempotent_last_writer_wins envC5).2.2
    "/first/libssl3.so" "/second/libssl3.so" [] (by decide)

theorem lookupLines_congr (env1 env2 : Env) (name : String) (ls : List String)
    (hpe : env1.pathExists = env2.pathExists) :
    lookupLines env1 name ls = lookupLines env2 name ls := by
  induction ls with
  | nil => rfl
  | cons l ls ih => rw [lookupLines, lookupLines, hpe, ih]

theorem find_nss_lib_congr (env1 env2 : Env) (name : String)
    (h1 : env1.ldconfigOnPath = env2.ldconfigOnPath)
    (h2 : env1.ldconfigRun = env2.ldconfigRun)
    (h3 : env1.pathExists = env2.pathExists)
    (h4 : env1.rglob = env2.rglob)
    (h5 : env1.isFile = env2.isFile) :
    find_nss_lib env1 name = find_nss_lib env2 name := by
  have hll : ldconfig_lookup env1 name = ldconfig_lookup env2 name := by
    unfold ldconfig_lookup
    rw [h1, h2]
    cases hr : env2.ldconfigRun with
    | none => rfl
    | some lines =>
      by_cases hop : env2.ldconfigOnPath = true
      · rw [if_pos hop, if_pos hop]
        show lookupLines env1 name lines = lookupLines env2 name lines
        exact lookupLines_congr env1 env2 name lines h3
      · rw [if_neg hop, if_neg hop]
  have hff : ∀ l, firstFile env1 l = firstFile env2 l := by
    intro l
    induction l with
    | nil => rfl
    | cons c cs ih => rw [firstFile, firstFile, h5, ih]
  have hfs : fsSearch env1 name = fsSearch env2 name := by
    unfold fsSearch
    rw [h4, hff, hff]
  unfold find_nss_lib
  rw [hll, hfs]

/-- C10: the exclusion policy is never consulted by named-library
resolution or staging — the result of `find_nss_lib` is determined solely
by the registry listing and the filesystem-search oracles (any host
agreeing on those agrees on the result), and a resolved path is staged by
the NSS staging step even when it contains a host-ABI exclusion marker. -/
theorem resolver_and_stager_ignore_exclusion (env : Env) (name p : String)
    (acc : StagingState × List String)
    (hf : find_nss_lib env name = some p)
    (hx : isExcluded p = true)
    (he : env.pathExists p = true)
    (hc : env.copyFails p = false) :
    (∀ env2 : Env, env2.ldconfigOnPath = env.ldconfigOnPath →
        env2.ldconfigRun = env.ldconfigRun →
        env2.pathExists = env.pathExists →
        env2.rglob = env.rglob → env2.isFile = env.isFile →
        find_nss_lib env2 name = some p) ∧
      lookupSt (stageNssOne env acc name).1 (baseName p) = some (env.content p) := by
  have hinv : ∀ env2 : Env, env2.ldconfigOnPath = env.ldconfigOnPath →
      env2.ldconfigRun = env.ldconfigRun →
      env2.pathExists = env.pathExists →
      env2.rglob = env.rglob → env2.isFile = env.isFile →
      find_nss_lib env2 name = some p := by
    intro env2 k1 k2 k3 k4 k5
    rw [find_nss_lib_congr env2 env name k1 k2 k3 k4 k5, hf]
  refine ⟨hinv, ?_⟩
  have h2 : stageNssOne env acc name = stageOne env acc p := by
    unfold stageNssOne
    rw [hf]
    show (if env.pathExists p then stageOne env acc p
      else (acc.1, acc.2 ++ ["WARN: NSS component not found: " ++ name])) =
      stageOne env acc p
    rw [if_pos he]
  rw [h2]
  unfold stageOne
  rw [hc]
  show lookupSt (copy_unique env p acc.1) (baseName p) = some (env.content p)
  exact lookupSt_setEntry_self _ _ _

/-- A host whose ldconfig listing resolves the queried name to the host C
library, a path that matches the exclusion marker `libc.so`. -/
def envC10 : Env :=
  { envBase with
    ldconfigRun :=
      some ["libc.so.6 (libc6,x86-64) => /lib/x86_64-linux-gnu/libc.so.6"]
    pathExists := fun _ => true
    content := fun _ => [3] }

theorem resolver_and_stager_ignore_exclusion_witness :
    isExcluded "/lib/x86_64-linux-gnu/libc.so.6" = true ∧
      lookupSt (stageNssOne envC10 (([], []) : StagingState × List String)
          "libc.so.6").1 (baseName "/lib/x86_64-linux-gnu/libc.so.6") =
        some (envC10.content "/lib/x86_64-linux-gnu/libc.so.6") :=
  ⟨by decide,
    (resolver_and_stager_ignore_exclusion envC10 "libc.so.6"
      "/lib/x86_64-linux-gnu/libc.so.6" (([], []) : StagingState × List String)
      (by decide) (by decide) (by decide) (by decide)).2⟩

/-!
## Theorems about the manifest loop
-/

theorem takeWhile_append_stop (p : Char → Bool) (l1 l2 : List Char) (x : Char)
    (h1 : ∀ c ∈ l1, p c = true) (hx : p x = false) :
    (l1 ++ x :: l2).takeWhile p = l1 := by
  induction l1 with
  | nil =>
    simp only [List.nil_append, List.takeWhile_cons, hx]
    rfl
  | cons c cs ih =>
    have hc : p c = true := h1 c (by simp)
    simp only [List.cons_append, List.takeWhile_cons, hc, if_pos]
    rw [ih (fun d hd => h1 d (by simp [hd]))]

theorem baseName_concat (dir n : String) (h : ('/' : Char) ∉ n.data) :
    baseName (dir ++ "/" ++ n) = n := by
  unfold baseName
  rw [String.data_append, String.data_append]
  rw [show (("/" : String).data) = ['/'] from rfl]
  rw [List.append_assoc, List.reverse_append, List.reverse_append]
  rw [show (['/'] : List Char).reverse = ['/'] from rfl]
  rw [List.append_assoc]
  rw [show (['/'] ++ dir.data.reverse : List Char) =
    '/' :: dir.data.reverse from rfl]
  rw [takeWhile_append_stop _ _ _ _ ?all ?stop]
  · rw [List.reverse_reverse]
  case all =>
    intro c hc
    rw [List.mem_reverse] at hc
    have : c ≠ '/' := fun hne => h (hne ▸ hc)
    simpa using this
  case stop => simp

/-- C4 (amended): the manifest loop emits one directive per directory entry
matched by `glob("*")`, whatever its kind; under the assumption that every
direct entry of the staging directory is a regular file (true for staging
directories this build constructs) the output length equals the number of
regular files, the sources are exactly the staged paths, every destination
is the constant `lib`, and the directives are ordered by filename. -/
theorem build_manifest_sorted_one_per_file (dir : String) (entries : List DirEntry)
    (hreg : ∀ e ∈ entries, e.2 = true)
    (hname : ∀ e ∈ entries, ('/' : Char) ∉ e.1.data) :
    (build_manifest dir entries).length = numRegular entries ∧
      ((build_manifest dir entries).map Prod.fst).Perm
        (entries.map (fun e => dir ++ "/" ++ e.1)) ∧
      (∀ d ∈ build_manifest dir entries, d.2 = "lib") ∧
      (build_manifest dir entries).Pairwise
        (fun d1 d2 => baseName d1.1 ≤ baseName d2.1) := by
  refine ⟨?_, ?_, ?_, ?_⟩
  · rw [build_manifest, List.length_map, List.length_insertionSort,
      List.length_map, numRegular, List.filter_eq_self.mpr hreg]
  · rw [build_manifest]
    have h1 : (List.map Prod.fst
        (List.map (fun n => (dir ++ "/" ++ n, "lib"))
          (List.insertionSort (fun a b : String => a ≤ b)
            (entries.map Prod.fst)))) =
        List.map (fun n => dir ++ "/" ++ n)
          (List.insertionSort (fun a b : String => a ≤ b)
            (entries.map Prod.fst)) := by
      rw [List.map_map]
      rfl
    rw [h1]
    have h2 := (List.perm_insertionSort (fun a b : String => a ≤ b)
      (entries.map Prod.fst)).map (fun n => dir ++ "/" ++ n)
    refine h2.trans ?_
    rw [List.map_map]
    rfl
  · intro d hd
    rw [build_manifest] at hd
    rcases List.mem_map.mp hd with ⟨n, -, rfl⟩
    rfl
  · rw [build_manifest]
    rw [List.pairwise_map]
    have hs : (List.insertionSort (fun a b : String => a ≤ b)
        (entries.map Prod.fst)).Pairwise (fun a b : String => a ≤ b) :=
      List.sorted_insertionSort (fun a b : String => a ≤ b) (entries.map Prod.fst)
    refine hs.imp_of_mem ?_
    intro a b ha hb hab
    have hma : ('/' : Char) ∉ a.data := by
      rcases List.mem_map.mp ((List.mem_insertionSort _).mp ha) with ⟨e, he, rfl⟩
      exact hname e he
    have hmb : ('/' : Char) ∉ b.data := by
      rcases List.mem_map.mp ((List.mem_insertionSort _).mp hb) with ⟨e, he, rfl⟩
      exact hname e he
    rw [baseName_concat dir a hma, baseName_concat dir b hmb]
    exact hab

/-- C4 counterexample: a staging directory containing one subdirectory
entry still yields a directive for it, so the loop output length (one) is
not the regular-file count (zero). -/
theorem build_manifest_counts_non_files :
    ¬ ((build_manifest "/stage" [("subdir", false)]).length =
        numRegular [("subdir", false)]) := by
  decide

theorem build_manifest_sorted_one_per_file_witness :
    (build_manifest "/s" [("b.so", true), ("a.so", true)]).length =
      numRegular [("b.so", true), ("a.so", true)] :=
  (build_manifest_sorted_one_per_file "/s" [("b.so", true), ("a.so", true)]
    (by decide) (by decide)).1

/-!
## Theorems about the best-effort libGLESv2 staging step
-/

/-- Specification helper for the step-3 loop: among the glob matches, the
last one that exists, whose copy succeeds, and whose base filename is `n`
— the one whose bytes end up staged under `n`. -/
def lastStagedMatch (env : Env) (ps : List String) (n : String) : Option String :=
  (ps.filter (fun p =>
    env.pathExists p && !env.copyFails p && (baseName p == n))).getLast?

theorem lookup_stageGlesFold (env : Env) (ps : List String)
    (acc : StagingState × List String) (n : String) :
    lookupSt (ps.foldl (stageGlesOne env) acc).1 n =
      match lastStagedMatch env ps n with
      | some p => some (env.content p)
      | none => lookupSt acc.1 n := by
  induction ps using List.reverseRecOn with
  | nil => rfl
  | append_singleton ps p ih =>
    rw [List.foldl_append]
    have hfil : lastStagedMatch env (ps ++ [p]) n =
        if env.pathExists p && !env.copyFails p && (baseName p == n) then some p
        else lastStagedMatch env ps n := by
      unfold lastStagedMatch
      rw [List.filter_append]
      by_cases hp : (env.pathExists p && !env.copyFails p && (baseName p == n)) = true
      · rw [if_pos hp]
        rw [show List.filter (fun p =>
            env.pathExists p && !env.copyFails p && (baseName p == n)) [p] = [p] by
          simp [List.filter, hp]]
        exact List.getLast?_concat _
      · rw [if_neg hp]
        rw [show List.filter (fun p =>
            env.pathExists p && !env.copyFails p && (baseName p == n)) [p] = [] by
          simp only [List.filter]
          rw [Bool.eq_false_iff.mpr hp]]
        rw [List.append_nil]
    rw [hfil]
    show lookupSt (stageGlesOne env (ps.foldl (stageGlesOne env) acc) p).1 n = _
    unfold stageGlesOne stageOne
    by_cases hex : env.pathExists p = true
    · rw [if_pos hex]
      by_cases hcf : env.copyFails p = true
      · rw [if_pos hcf]
        rw [show (env.pathExists p && !env.copyFails p && (baseName p == n)) = false by
          simp [hex, hcf]]
        exact ih
      · rw [if_neg hcf]
        show lookupSt (copy_unique env p (ps.foldl (stageGlesOne env) acc).1) n = _
        by_cases hbn : baseName p = n
        · rw [show (env.pathExists p && !env.copyFails p && (baseName p == n)) = true by
            simp [hex, hbn, Bool.eq_false_iff.mpr hcf]]
          unfold copy_unique
          rw [hbn]
          exact lookupSt_setEntry_self _ _ _
        · rw [show (env.pathExists p && !env.copyFails p && (baseName p == n)) = false by
            simp [hbn]]
          unfold copy_unique
          rw [lookupSt_setEntry_ne _ _ _ _ hbn]
          exact ih
    · rw [if_neg hex]
      rw [show (env.pathExists p && !env.copyFails p && (baseName p == n)) = false by
        simp [Bool.eq_false_iff.mpr hex]]
      exact ih

theorem snd_stageGlesOne_mono (env : Env) (acc : StagingState × List String)
    (gp w : String) (h : w ∈ acc.2) : w ∈ (stageGlesOne env acc gp).2 := by
  unfold stageGlesOne stageOne
  by_cases hex : env.pathExists gp = true
  · rw [if_pos hex]
    by_cases hcf : env.copyFails gp = true
    · rw [if_pos hcf]
      exact List.mem_append_left _ h
    · rw [if_neg hcf]
      exact h
  · rw [if_neg hex]
    exact h

theorem snd_stageGlesFold_mono (env : Env) (ps : List String)
    (acc : StagingState × List String) (w : String) (h : w ∈ acc.2) :
    w ∈ (ps.foldl (stageGlesOne env) acc).2 := by
  induction ps generalizing acc with
  | nil => exact h
  | cons p ps ih => exact ih _ (snd_stageGlesOne_mono env acc p w h)

/-- C9: staging has a third producer: every existing `glob.glob` match of
the fixed libGLESv2 pattern is staged, best-effort — the bytes staged under
a filename are those of the last existing, successfully copied match; a
per-file copy failure only appends a warning (the loop never aborts); and
every existing match whose copy succeeds is present in the staging
directory afterwards. -/
theorem gles_glob_staged_best_effort (env : Env)
    (acc : StagingState × List String) :
    (∀ n, lookupSt (stageGles env acc).1 n =
        match lastStagedMatch env (env.glob glesPattern) n with
        | some p => some (env.content p)
        | none => lookupSt acc.1 n) ∧
      (∀ gp ∈ env.glob glesPattern, env.pathExists gp = true →
        env.copyFails gp = true →
        ("WARN: failed to copy " ++ gp) ∈ (stageGles env acc).2) ∧
      (∀ gp ∈ env.glob glesPattern, env.pathExists gp = true →
        env.copyFails gp = false →
        (lookupSt (stageGles env acc).1 (baseName gp)).isSome = true) := by
  refine ⟨?_, ?_, ?_⟩
  · intro n
    exact lookup_stageGlesFold env (env.glob glesPattern) acc n
  · intro gp hg hex hcf
    unfold stageGles
    generalize env.glob glesPattern = ps at hg ⊢
    induction ps generalizing acc with
    | nil => cases hg
    | cons p ps ih =>
      rcases List.mem_cons.mp hg with rfl | hmem
      · rw [List.foldl_cons]
        refine snd_stageGlesFold_mono env ps _ _ ?_
        unfold stageGlesOne stageOne
        rw [if_pos hex, if_pos hcf]
        exact List.mem_append_right _ (by simp)
      · rw [List.foldl_cons]
        exact ih _ hmem
  · intro gp hg hex hcf
    have hgoal : lookupSt (stageGles env acc).1 (baseName gp) =
        match lastStagedMatch env (env.glob glesPattern) (baseName gp) with
        | some p => some (env.content p)
        | none => lookupSt acc.1 (baseName gp) :=
      lookup_stageGlesFold env (env.glob glesPattern) acc (baseName gp)
    rw [hgoal]
    have hpred : (env.pathExists gp && !env.copyFails gp &&
        (baseName gp == baseName gp)) = true := by
      simp [hex, hcf]
    have hmem : gp ∈ (env.glob glesPattern).filter (fun p =>
        env.pathExists p && !env.copyFails p && (baseName p == baseName gp)) :=
      List.mem_filter.mpr ⟨hg, hpred⟩
    have hne : (env.glob glesPattern).filter (fun p =>
        env.pathExists p && !env.copyFails p && (baseName p == baseName gp)) ≠ [] :=
      List.ne_nil_of_mem hmem
    have hsome := List.getLast?_isSome.mpr hne
    cases hlast : lastStagedMatch env (env.glob glesPattern) (baseName gp) with
    | none =>
      unfold lastStagedMatch at hlast
      rw [hlast] at hsome
      cases hsome
    | some q => rfl

/-- A host with two existing libGLESv2 glob matches, one of which fails to
copy. -/
def envC9 : Env :=
  { envBase with
    glob := fun pat =>
      if pat == glesPattern then
        ["/usr/lib/x86_64-linux-gnu/libGLESv2.so.2",
         "/usr/lib/x86_64-linux-gnu/broken.so"]
      else []
    pathExists := fun _ => true
    copyFails := fun p => p == "/usr/lib/x86_64-linux-gnu/broken.so"
    content := fun _ => [9] }

theorem gles_glob_staged_best_effort_witness :
    lookupSt (stageGles envC9
        (([], []) : StagingState × List String)).1 "libGLESv2.so.2" = some [9] ∧
      ("WARN: failed to copy /usr/lib/x86_64-linux-gnu/broken.so") ∈
        (stageGles envC9 (([], []) : StagingState × List String)).2 := by
  have h := gles_glob_staged_best_effort envC9
    (([], []) : StagingState × List String)
  constructor
  · rw [h.1 "libGLESv2.so.2"]
    decide
  · have h2 := h.2.1 "/usr/lib/x86_64-linux-gnu/broken.so"
      (by decide) (by decide) (by decide)
    simpa using h2
